import Mathlib

/-!
Verification development for the Zeno distributed data-sync and verification
module (`src/examples/optimize_gas.js`, "Data Syncing" section).

The JavaScript source is shallowly embedded: JSON documents become an
inductive `Json`, the data directory becomes an association list `Store`,
network fetches and filesystem write outcomes are supplied by a `SyncEnv`
environment, and every fallible operation returns `Except String`.
JavaScript peculiarities that the sync logic depends on are modelled
explicitly: `Date` construction from a JSON value (`jsDateOf`, where `none`
plays the role of an invalid date / `NaN`), the `>` comparison on dates
(false whenever either side is `NaN`), member access (`jsMember`, a
`TypeError` on `null`), and truthiness (`jsTruthy`).

Modelling boundaries, each noted at its definition: JSON numbers are
modelled as integers, date-string parsing of the `Date` constructor is not
modelled (string timestamps count as invalid), and the pretty-printer
bounds nesting depth by fuel.
-/

/-- A JSON document, as produced by `JSON.parse` / consumed by
`JSON.stringify` in the source. Numbers are modelled as integers: every
timestamp and payload number appearing in the repository is integral. -/
inductive Json where
  | null : Json
  | bool (b : Bool) : Json
  | num (n : Int) : Json
  | str (s : String) : Json
  | arr (elems : List Json) : Json
  | obj (fields : List (String × Json)) : Json

/-- Whitespace characters skipped by `JSON.parse`. -/
def isWsChar (c : Char) : Bool :=
  c = ' ' || c = '\t' || c = '\n' || c = '\r'

/-- Drop leading JSON whitespace. -/
def skipWs (cs : List Char) : List Char :=
  cs.dropWhile isWsChar

/-- Consume an expected literal prefix, returning the remaining input. -/
def dropPrefixQ : List Char → List Char → Option (List Char)
  | [], cs => some cs
  | _ :: _, [] => none
  | p :: ps, c :: cs => if c = p then dropPrefixQ ps cs else none

/-- Accumulate a run of decimal digits. -/
def takeDigits : List Char → Nat → Nat × List Char
  | [], acc => (acc, [])
  | c :: cs, acc =>
    if c.isDigit then takeDigits cs (acc * 10 + (c.toNat - 48)) else (acc, c :: cs)

/-- Parse a JSON number. Fractions and exponents are not modelled (all
numbers in the repository payloads are integers). -/
def parseNum : List Char → Option (Json × List Char)
  | [] => none
  | c :: cs =>
    if c = '-' then
      match cs with
      | [] => none
      | d :: _ =>
        if d.isDigit then
          match takeDigits cs 0 with
          | (n, rest) => some (Json.num (-(Int.ofNat n)), rest)
        else none
    else if c.isDigit then
      match takeDigits (c :: cs) 0 with
      | (n, rest) => some (Json.num (Int.ofNat n), rest)
    else none

/-- Value of a hexadecimal digit. -/
def hexVal (c : Char) : Option Nat :=
  if c.isDigit then some (c.toNat - 48)
  else if 'a' ≤ c && c ≤ 'f' then some (c.toNat - 87)
  else if 'A' ≤ c && c ≤ 'F' then some (c.toNat - 55)
  else none

/-- Prepend a decoded character to the string being accumulated. -/
def consMap (c : Char) : Option (List Char × List Char) → Option (List Char × List Char)
  | some (acc, rest) => some (c :: acc, rest)
  | none => none

/-- Parse the body of a JSON string literal (the opening quote already
consumed), handling the standard escapes. Surrogate-pair combination for
escaped code units is not modelled. -/
def parseStrAux : List Char → Option (List Char × List Char)
  | [] => none
  | c :: rest =>
    if c = '"' then some ([], rest)
    else if c = '\\' then
      match rest with
      | [] => none
      | e :: rest2 =>
        if e = '"' then consMap '"' (parseStrAux rest2)
        else if e = '\\' then consMap '\\' (parseStrAux rest2)
        else if e = '/' then consMap '/' (parseStrAux rest2)
        else if e = 'n' then consMap '\n' (parseStrAux rest2)
        else if e = 't' then consMap '\t' (parseStrAux rest2)
        else if e = 'r' then consMap '\r' (parseStrAux rest2)
        else if e = 'b' then consMap (Char.ofNat 8) (parseStrAux rest2)
        else if e = 'f' then consMap (Char.ofNat 12) (parseStrAux rest2)
        else if e = 'u' then
          match rest2 with
          | h1 :: h2 :: h3 :: h4 :: rest3 =>
            match hexVal h1, hexVal h2, hexVal h3, hexVal h4 with
            | some a, some b, some c2, some d =>
              consMap (Char.ofNat (((a * 16 + b) * 16 + c2) * 16 + d)) (parseStrAux rest3)
            | _, _, _, _ => none
          | _ => none
        else none
    else consMap c (parseStrAux rest)

/-- Record a parsed object member. `JSON.parse` keeps one entry per key:
a duplicate key overwrites the earlier value in place. -/
def insertField (fields : List (String × Json)) (k : String) (v : Json) :
    List (String × Json) :=
  if fields.any (fun p => p.1 == k) then
    fields.map (fun p => if p.1 == k then (k, v) else p)
  else fields ++ [(k, v)]

/-- Parsing task: a single value, the tail of an array, or the tail of an
object (with the members accumulated so far). -/
inductive PTask where
  | pval : PTask
  | parr (acc : List Json) : PTask
  | pobj (acc : List (String × Json)) : PTask

/-- Fuel-indexed recursive-descent JSON reader; the fuel is structural and
`parseJson` supplies enough of it for any input. -/
def parseStep : Nat → PTask → List Char → Option (Json × List Char)
  | 0, _, _ => none
  | fuel + 1, PTask.pval, cs =>
    match skipWs cs with
    | [] => none
    | c :: rest =>
      if c = '"' then
        match parseStrAux rest with
        | some (sc, r1) => some (Json.str (String.mk sc), r1)
        | none => none
      else if c = '[' then
        match skipWs rest with
        | [] => none
        | c2 :: r2 =>
          if c2 = ']' then some (Json.arr [], r2)
          else parseStep fuel (PTask.parr []) (c2 :: r2)
      else if c = Char.ofNat 123 then
        match skipWs rest with
        | [] => none
        | c2 :: r2 =>
          if c2 = Char.ofNat 125 then some (Json.obj [], r2)
          else parseStep fuel (PTask.pobj []) (c2 :: r2)
      else if c = '-' || c.isDigit then parseNum (c :: rest)
      else
        match dropPrefixQ ['n', 'u', 'l', 'l'] (c :: rest) with
        | some r1 => some (Json.null, r1)
        | none =>
          match dropPrefixQ ['t', 'r', 'u', 'e'] (c :: rest) with
          | some r1 => some (Json.bool true, r1)
          | none =>
            match dropPrefixQ ['f', 'a', 'l', 's', 'e'] (c :: rest) with
            | some r1 => some (Json.bool false, r1)
            | none => none
  | fuel + 1, PTask.parr acc, cs =>
    match parseStep fuel PTask.pval cs with
    | none => none
    | some (v, r1) =>
      match skipWs r1 with
      | [] => none
      | c :: r2 =>
        if c = ']' then some (Json.arr (acc ++ [v]), r2)
        else if c = ',' then parseStep fuel (PTask.parr (acc ++ [v])) r2
        else none
  | fuel + 1, PTask.pobj acc, cs =>
    match skipWs cs with
    | [] => none
    | c :: rest =>
      if c = '"' then
        match parseStrAux rest with
        | none => none
        | some (kc, r1) =>
          match skipWs r1 with
          | [] => none
          | c2 :: r2 =>
            if c2 = ':' then
              match parseStep fuel PTask.pval r2 with
              | none => none
              | some (v, r3) =>
                match skipWs r3 with
                | [] => none
                | c3 :: r4 =>
                  if c3 = Char.ofNat 125 then
                    some (Json.obj (insertField acc (String.mk kc) v), r4)
                  else if c3 = ',' then
                    parseStep fuel (PTask.pobj (insertField acc (String.mk kc) v)) r4
                  else none
            else none
      else none

/-- `JSON.parse`: parse a complete document, allowing surrounding
whitespace and rejecting trailing garbage. Returns `none` where the
original throws a parse error. -/
def parseJson (s : String) : Option Json :=
  match parseStep (2 * s.length + 8) PTask.pval s.data with
  | some (v, rest) => if (skipWs rest).isEmpty then some v else none
  | none => none

/-- Escape one character the way `JSON.stringify` does. -/
def escChar (c : Char) : String :=
  if c = '"' then "\\\""
  else if c = '\\' then "\\\\"
  else if c = '\n' then "\\n"
  else if c = '\t' then "\\t"
  else if c = '\r' then "\\r"
  else if c.toNat = 8 then "\\b"
  else if c.toNat = 12 then "\\f"
  else if c.toNat < 32 then
    "\\u00" ++ String.mk [
      (if c.toNat / 16 < 10 then Char.ofNat (48 + c.toNat / 16) else Char.ofNat (87 + c.toNat / 16)),
      (if c.toNat % 16 < 10 then Char.ofNat (48 + c.toNat % 16) else Char.ofNat (87 + c.toNat % 16))]
  else String.singleton c

/-- Quote a string the way `JSON.stringify` does. -/
def jsonQuote (s : String) : String :=
  "\"" ++ (s.data.foldl (fun acc c => acc ++ escChar c) "") ++ "\""

/-- Fuel-indexed body of `JSON.stringify(v, null, 2)`; `ind` is the current
indentation of the enclosing value. -/
def stringifyFuel : Nat → String → Json → String
  | 0, _, _ => ""
  | fuel + 1, ind, v =>
    match v with
    | Json.null => "null"
    | Json.bool true => "true"
    | Json.bool false => "false"
    | Json.num n => toString n
    | Json.str s => jsonQuote s
    | Json.arr xs =>
      if xs.isEmpty then "[]"
      else "[\n" ++
        String.intercalate ",\n"
          (xs.map (fun e => ind ++ "  " ++ stringifyFuel fuel (ind ++ "  ") e)) ++
        "\n" ++ ind ++ "]"
    | Json.obj fs =>
      if fs.isEmpty then "\x7b\x7d"
      else "\x7b\n" ++
        String.intercalate ",\n"
          (fs.map (fun p =>
            ind ++ "  " ++ jsonQuote p.1 ++ ": " ++ stringifyFuel fuel (ind ++ "  ") p.2)) ++
        "\n" ++ ind ++ "\x7d"

/-- `JSON.stringify(v, null, 2)` as used by `synchronizeData` when
persisting records. The fuel bounds nesting depth at 32; every value
handled in this development is far shallower. -/
def jsonStringify2 (v : Json) : String :=
  stringifyFuel 32 "" v

/-- The data directory (`CONFIG.dataDirectory`) as a file-name/content
association list; `path.join` with the fixed directory is left implicit
since every access goes through the same directory. -/
abbrev Store := List (String × String)

/-- `fs.readFileSync` + `fs.existsSync` combined: the content stored under
a file name, if any. -/
def Store.read : Store → String → Option String
  | [], _ => none
  | (k2, v) :: rest, k => if k2 = k then some v else Store.read rest k

/-- `fs.writeFileSync`: overwrite the content under a file name, creating
the entry if absent. -/
def Store.write : Store → String → String → Store
  | [], k, v => [(k, v)]
  | (k2, v2) :: rest, k, v =>
    if k2 = k then (k, v) :: rest else (k2, v2) :: Store.write rest k v

theorem Store.read_write_self (st : Store) (k v : String) :
    Store.read (Store.write st k v) k = some v := by
  induction st with
  | nil => simp [Store.write, Store.read]
  | cons hd tl ih =>
    obtain ⟨k2, v2⟩ := hd
    by_cases h : k2 = k
    · simp [Store.write, Store.read, h]
    · simp [Store.write, Store.read, h, ih]

theorem Store.read_write_ne (st : Store) (k k2 v : String) (h : k2 ≠ k) :
    Store.read (Store.write st k v) k2 = Store.read st k2 := by
  have h2 : ¬ (k = k2) := fun hh => h hh.symm
  induction st with
  | nil => simp [Store.write, Store.read, h2]
  | cons hd tl ih =>
    obtain ⟨k3, v3⟩ := hd
    by_cases hk : k3 = k
    · subst hk
      simp [Store.write, Store.read, h2]
    · by_cases hk2 : k3 = k2
      · simp [Store.write, Store.read, hk, hk2, h]
      · simp [Store.write, Store.read, hk, hk2, ih]

/-- One step of the rolling digest standing in for sha-256. -/
def hashStep (h : Nat) (c : Char) : Nat :=
  (h * 131 + c.toNat + 7) % 1099511627776

/-- Hexadecimal digit character. -/
def hexDigitChar (n : Nat) : Char :=
  if n < 10 then Char.ofNat (48 + n) else Char.ofNat (87 + n)

/-- Hexadecimal rendering of a digest value (fuel bounds the digit count;
digests fit in 40 bits, i.e. 10 hex digits). -/
def natToHexAux : Nat → Nat → List Char
  | 0, _ => []
  | fuel + 1, n => if n = 0 then [] else natToHexAux fuel (n / 16) ++ [hexDigitChar (n % 16)]

/-- Hexadecimal rendering of a natural number. -/
def natToHex (n : Nat) : String :=
  if n = 0 then "0" else String.mk (natToHexAux 16 n)

/-- Modelled from the spec: `hashData` delegates to
`crypto.createHash("sha256").update(data).digest("hex")`, whose sha-256
implementation lives in the external `crypto` library, not in this
repository. The spec requires only a deterministic digest over the payload
bytes producing a hex string; it is modelled here by a fixed rolling-hash
digest. -/
def hashData (data : String) : String :=
  natToHex (data.data.foldl hashStep 5381)

/-- Sanity check: the embedded `JSON.parse` on a compact record. -/
theorem parseJson_compact_record :
    parseJson "\x7b\"timestamp\":200,\"value\":\"y\"\x7d" =
      some (Json.obj [("timestamp", Json.num 200), ("value", Json.str "y")]) := rfl

/-- Sanity check: the embedded `JSON.stringify(v, null, 2)` on a record. -/
theorem jsonStringify2_record_pretty :
    jsonStringify2 (Json.obj [("timestamp", Json.num 200), ("value", Json.str "y")]) =
      "\x7b\n  \"timestamp\": 200,\n  \"value\": \"y\"\n\x7d" := rfl

/-- First field with the given key (parsed objects carry unique keys). -/
def lookupField : List (String × Json) → String → Option Json
  | [], _ => none
  | (k2, v) :: rest, k => if k2 = k then some v else lookupField rest k

/-- JavaScript member access `v.timestamp` on a JSON value: a `TypeError`
on `null`, the field value on an object carrying the field, and
`undefined` (modelled as `none`) everywhere else. -/
def jsMember (v : Json) (k : String) : Except String (Option Json) :=
  match v with
  | Json.null => Except.error ("TypeError: cannot read " ++ k ++ " of null")
  | Json.obj fields => Except.ok (lookupField fields k)
  | _ => Except.ok none

/-- `new Date(x).valueOf()` for a JSON member value, where `none` stands
for an invalid date (`NaN`): `undefined` gives `NaN`, `null` gives the
epoch, booleans coerce to 0/1, numbers are taken as milliseconds.
Date-string parsing of the `Date` constructor is not modelled, so string
(and array/object) timestamps count as invalid; all timestamps appearing
in this repository are numeric. -/
def jsDateOf : Option Json → Option Int
  | none => none
  | some Json.null => some 0
  | some (Json.bool b) => some (if b then 1 else 0)
  | some (Json.num n) => some n
  | some (Json.str _) => none
  | some (Json.arr _) => none
  | some (Json.obj _) => none

/-- JavaScript `>` on two `Date` values: numeric comparison, false whenever
either side is `NaN`. -/
def jsDateGtM : Option Int → Option Int → Bool
  | some a, some b => decide (b < a)
  | _, _ => false

/-- JavaScript truthiness of a JSON value. -/
def jsTruthy : Json → Bool
  | Json.null => false
  | Json.bool b => b
  | Json.num n => if n = 0 then false else true
  | Json.str s => if s = "" then false else true
  | Json.arr _ => true
  | Json.obj _ => true

/-- One entry of `CONFIG.nodes`. -/
structure NodeCfg where
  name : String
  url : String

/-- First entry of `CONFIG.nodes`. -/
def nodeA : NodeCfg := ⟨"Node 1", "http://node1.blockchain.net/sync"⟩

/-- Second entry of `CONFIG.nodes`. -/
def nodeB : NodeCfg := ⟨"Node 2", "http://node2.blockchain.net/sync"⟩

/-- Third entry of `CONFIG.nodes`. -/
def nodeC : NodeCfg := ⟨"Node 3", "http://node3.blockchain.net/sync"⟩

/-- The three peers configured in `CONFIG.nodes`. -/
def configNodes : List NodeCfg := [nodeA, nodeB, nodeC]

/-- `CONFIG.conflictResolution`. -/
def configConflictResolution : String := "latest-timestamp"

/-- External world seen by one sync cycle: `fetch` gives the body
`axios.get(url)` resolves to (or the error it rejects with), and `writeOk`
tells whether `fs.writeFileSync` on a given file succeeds (it can throw,
e.g. on a full disk). -/
structure SyncEnv where
  fetch : String → Except String Json
  writeOk : String → Bool

/-- Result of one peer's iteration of the `synchronizeData` loop: the
success branch reaches the final `Data synchronized` log, the catch branch
records the caught error message. -/
structure SyncOutcome where
  peerName : String
  succeeded : Bool
  errorDetail : Option String

/-- `name.replace(/\s+/g, "_")`: each maximal whitespace run becomes one
underscore; `prevWs` remembers whether the previous character was part of
a run. -/
def squashWsAux : Bool → List Char → List Char
  | _, [] => []
  | prevWs, c :: rest =>
    if isWsChar c then
      (if prevWs then [] else ['_']) ++ squashWsAux true rest
    else c :: squashWsAux false rest

/-- The local file name derived from a peer name in `synchronizeData`:
whitespace squashed to underscores, then `_data.json` appended. -/
def localFileName (name : String) : String :=
  String.mk (squashWsAux false name.data) ++ "_data.json"

/-- Sanity check: the file name derived for the first configured peer,
matching the name `main` later passes to the verifier. -/
theorem localFileName_node1 : localFileName "Node 1" = "Node_1_data.json" := rfl

/-- `saveDataToFile`: write the payload under the file name; the
underlying `fs.writeFileSync` throws when the environment says so. -/
def saveDataToFile (env : SyncEnv) (store : Store) (fileName data : String) :
    Except String Store :=
  if env.writeOk fileName then Except.ok (Store.write store fileName data)
  else Except.error ("write failed: " ++ fileName)

/-- `loadDataFromFile`: read the payload under the file name, throwing
`File not found` when no such file exists. -/
def loadDataFromFile (store : Store) (fileName : String) : Except String String :=
  match Store.read store fileName with
  | some d => Except.ok d
  | none => Except.error ("File not found: " ++ fileName)

/-- `JSON.parse` as an `Except`: a parse failure is the thrown
`SyntaxError`. -/
def jsonParseJS (s : String) : Except String Json :=
  match parseJson s with
  | some j => Except.ok j
  | none => Except.error "Unexpected token in JSON"

/-- `resolveConflict(localData, remoteData)`: convert both `timestamp`
members to dates (member access first — it can throw on `null`), then
check the configured policy; under `latest-timestamp` the local record
wins exactly when its date compares strictly greater, and any other policy
throws `Unsupported conflict resolution strategy` at this point. -/
def resolveConflict (policy : String) (localData remoteData : Json) :
    Except String Json :=
  match jsMember localData "timestamp" with
  | Except.error e => Except.error e
  | Except.ok lts =>
    match jsMember remoteData "timestamp" with
    | Except.error e => Except.error e
    | Except.ok rts =>
      if policy = "latest-timestamp" then
        Except.ok (if jsDateGtM (jsDateOf lts) (jsDateOf rts) then localData else remoteData)
      else
        Except.error "Unsupported conflict resolution strategy"

/-- `NodeSync.fetchData`: the `axios.get` against the node's URL, answered
by the environment. -/
def fetchData (env : SyncEnv) (node : NodeCfg) : Except String Json :=
  env.fetch node.url

/-- The body of one iteration of the `synchronizeData` loop (everything
inside the per-peer `try`): fetch, load-and-parse the local file if it
exists (else `null`), resolve when the local value is truthy, and persist
the chosen value pretty-printed. An `error` is the exception the `catch`
block will receive. -/
def syncPeerBody (env : SyncEnv) (policy : String) (store : Store) (node : NodeCfg) :
    Except String Store :=
  match fetchData env node with
  | Except.error e => Except.error e
  | Except.ok remoteData =>
    match (match Store.read store (localFileName node.name) with
           | some _ =>
             match loadDataFromFile store (localFileName node.name) with
             | Except.error e => Except.error e
             | Except.ok content => jsonParseJS content
           | none => Except.ok Json.null) with
    | Except.error e => Except.error e
    | Except.ok localData =>
      if jsTruthy localData then
        match resolveConflict policy localData remoteData with
        | Except.error e => Except.error e
        | Except.ok resolvedData =>
          saveDataToFile env store (localFileName node.name) (jsonStringify2 resolvedData)
      else
        saveDataToFile env store (localFileName node.name) (jsonStringify2 remoteData)

/-- `synchronizeData`: iterate the configured peers in order; each peer's
body runs under a `try`/`catch`, so a failure is recorded for that peer
and the loop proceeds. Returns the final store and one outcome per peer
in configuration order. -/
def synchronizeData (env : SyncEnv) (policy : String) :
    List NodeCfg → Store → Store × List SyncOutcome
  | [], store => (store, [])
  | node :: rest, store =>
    match syncPeerBody env policy store node with
    | Except.ok st2 =>
      let r := synchronizeData env policy rest st2
      (r.1, ⟨node.name, true, none⟩ :: r.2)
    | Except.error e =>
      let r := synchronizeData env policy rest store
      (r.1, ⟨node.name, false, some e⟩ :: r.2)

/-- `DataVerifier.verifyIntegrity`: load the file (a missing file
propagates as `File not found`), hash it, and report whether the digest
equals the expected one. -/
def verifyIntegrity (store : Store) (fileName expectedHash : String) :
    Except String Bool :=
  match loadDataFromFile store fileName with
  | Except.error e => Except.error e
  | Except.ok data =>
    if hashData data = expectedHash then Except.ok true else Except.ok false

/-! ### Characterizations of one peer iteration -/

theorem jsDateGtM_none_left (x : Option Int) : jsDateGtM none x = false := by
  cases x <;> rfl

theorem jsDateGtM_none_right (x : Option Int) : jsDateGtM x none = false := by
  cases x <;> rfl

theorem resolveConflict_latest_eq (l r : Json) (tl tr : Option Json)
    (hml : jsMember l "timestamp" = Except.ok tl)
    (hmr : jsMember r "timestamp" = Except.ok tr) :
    resolveConflict "latest-timestamp" l r =
      Except.ok (if jsDateGtM (jsDateOf tl) (jsDateOf tr) then l else r) := by
  simp [resolveConflict, hml, hmr]

theorem resolveConflict_unsupported (policy : String) (l r : Json) (tl tr : Option Json)
    (hpol : policy ≠ "latest-timestamp")
    (hml : jsMember l "timestamp" = Except.ok tl)
    (hmr : jsMember r "timestamp" = Except.ok tr) :
    resolveConflict policy l r =
      Except.error "Unsupported conflict resolution strategy" := by
  simp [resolveConflict, hml, hmr, hpol]

theorem syncPeerBody_fetch_error (env : SyncEnv) (policy : String) (store : Store)
    (node : NodeCfg) (e : String) (hf : env.fetch node.url = Except.error e) :
    syncPeerBody env policy store node = Except.error e := by
  simp [syncPeerBody, fetchData, hf]

theorem syncPeerBody_no_local (env : SyncEnv) (policy : String) (store : Store)
    (node : NodeCfg) (r : Json)
    (hf : env.fetch node.url = Except.ok r)
    (hl : Store.read store (localFileName node.name) = none)
    (hw : env.writeOk (localFileName node.name) = true) :
    syncPeerBody env policy store node =
      Except.ok (Store.write store (localFileName node.name) (jsonStringify2 r)) := by
  simp [syncPeerBody, fetchData, hf, hl, jsTruthy, saveDataToFile, hw]

theorem syncPeerBody_with_local (env : SyncEnv) (policy : String) (store : Store)
    (node : NodeCfg) (r : Json) (c : String) (l w : Json)
    (hf : env.fetch node.url = Except.ok r)
    (hl : Store.read store (localFileName node.name) = some c)
    (hp : parseJson c = some l)
    (ht : jsTruthy l = true)
    (hres : resolveConflict policy l r = Except.ok w)
    (hw : env.writeOk (localFileName node.name) = true) :
    syncPeerBody env policy store node =
      Except.ok (Store.write store (localFileName node.name) (jsonStringify2 w)) := by
  simp [syncPeerBody, fetchData, hf, hl, loadDataFromFile, jsonParseJS, hp, ht, hres,
    saveDataToFile, hw]

theorem syncPeerBody_resolve_error (env : SyncEnv) (policy : String) (store : Store)
    (node : NodeCfg) (r : Json) (c : String) (l : Json) (e : String)
    (hf : env.fetch node.url = Except.ok r)
    (hl : Store.read store (localFileName node.name) = some c)
    (hp : parseJson c = some l)
    (ht : jsTruthy l = true)
    (hres : resolveConflict policy l r = Except.error e) :
    syncPeerBody env policy store node = Except.error e := by
  simp [syncPeerBody, fetchData, hf, hl, loadDataFromFile, jsonParseJS, hp, ht, hres]

/-! ### Concrete fixtures used by witnesses and counterexamples -/

/-- A well-formed remote record for peer `Node 1`. -/
def recA : Json := Json.obj [("timestamp", Json.num 100), ("value", Json.str "a")]

/-- A well-formed remote record for peer `Node 3`. -/
def recC : Json := Json.obj [("timestamp", Json.num 300), ("value", Json.str "c")]

/-- Environment in which peers 1 and 3 answer with well-formed records and
peer 2 is unreachable; all writes succeed. -/
def envW1 : SyncEnv :=
  ⟨fun u =>
      if u = "http://node1.blockchain.net/sync" then Except.ok recA
      else if u = "http://node3.blockchain.net/sync" then Except.ok recC
      else Except.error "Network Error",
   fun _ => true⟩

/-- The remote record `(timestamp 100, value "x")` of the spec scenarios. -/
def remote8 : Json := Json.obj [("timestamp", Json.num 100), ("value", Json.str "x")]

/-- Environment in which every fetch answers `remote8`; writes succeed. -/
def env8 : SyncEnv := ⟨fun _ => Except.ok remote8, fun _ => true⟩

/-- Environment in which every fetch answers a payload that is not a
record at all (a bare string); writes succeed. -/
def env9 : SyncEnv := ⟨fun _ => Except.ok (Json.str "garbage"), fun _ => true⟩

/-! ### C1 -/

/-- C1: one peer's failure never aborts the cycle. For a cycle over peers
`[a, b, c]` in which only `b`'s fetch fails, the cycle reports the three
outcomes in order with `b` failed, and both `a`'s and `c`'s remote records
are fetched and persisted under their keys. -/
theorem synchronizeData_isolates_peer_failure
    (env : SyncEnv) (a b c : NodeCfg) (store : Store) (ra rc : Json) (eb : String)
    (hfa : env.fetch a.url = Except.ok ra)
    (hfb : env.fetch b.url = Except.error eb)
    (hfc : env.fetch c.url = Except.ok rc)
    (hla : Store.read store (localFileName a.name) = none)
    (hlc : Store.read store (localFileName c.name) = none)
    (hdiff : localFileName a.name ≠ localFileName c.name)
    (hwa : env.writeOk (localFileName a.name) = true)
    (hwc : env.writeOk (localFileName c.name) = true) :
    (synchronizeData env "latest-timestamp" [a, b, c] store).2 =
      [⟨a.name, true, none⟩, ⟨b.name, false, some eb⟩, ⟨c.name, true, none⟩] ∧
    Store.read (synchronizeData env "latest-timestamp" [a, b, c] store).1
      (localFileName a.name) = some (jsonStringify2 ra) ∧
    Store.read (synchronizeData env "latest-timestamp" [a, b, c] store).1
      (localFileName c.name) = some (jsonStringify2 rc) := by
  have h1 := syncPeerBody_no_local env "latest-timestamp" store a ra hfa hla hwa
  have hlc1 : Store.read (Store.write store (localFileName a.name) (jsonStringify2 ra))
      (localFileName c.name) = none := by
    rw [Store.read_write_ne _ _ _ _ (Ne.symm hdiff)]
    exact hlc
  have h2 := syncPeerBody_fetch_error env "latest-timestamp"
    (Store.write store (localFileName a.name) (jsonStringify2 ra)) b eb hfb
  have h3 := syncPeerBody_no_local env "latest-timestamp"
    (Store.write store (localFileName a.name) (jsonStringify2 ra)) c rc hfc hlc1 hwc
  refine ⟨?_, ?_, ?_⟩
  · simp [synchronizeData, h1, h2, h3]
  · simp only [synchronizeData, h1, h2, h3]
    rw [Store.read_write_ne _ _ _ _ hdiff]
    exact Store.read_write_self store (localFileName a.name) (jsonStringify2 ra)
  · simp only [synchronizeData, h1, h2, h3]
    exact Store.read_write_self _ (localFileName c.name) (jsonStringify2 rc)

/-- C1 witness: the configured three peers with peer 2 unreachable. -/
theorem synchronizeData_isolates_peer_failure_witness :
    (synchronizeData envW1 "latest-timestamp" [nodeA, nodeB, nodeC] []).2 =
      [⟨"Node 1", true, none⟩, ⟨"Node 2", false, some "Network Error"⟩,
       ⟨"Node 3", true, none⟩] ∧
    Store.read (synchronizeData envW1 "latest-timestamp" [nodeA, nodeB, nodeC] []).1
      "Node_1_data.json" = some (jsonStringify2 recA) ∧
    Store.read (synchronizeData envW1 "latest-timestamp" [nodeA, nodeB, nodeC] []).1
      "Node_3_data.json" = some (jsonStringify2 recC) :=
  synchronizeData_isolates_peer_failure envW1 nodeA nodeB nodeC [] recA recC
    "Network Error" rfl rfl rfl rfl rfl (by decide) rfl rfl

/-! ### C5 -/

/-- C5 (amended): one sync cycle produces exactly one outcome per
configured peer, in the configured peer order, whatever succeeds or
fails. -/
theorem synchronizeData_one_outcome_per_peer_in_order
    (env : SyncEnv) (policy : String) (nodes : List NodeCfg) (store : Store) :
    ((synchronizeData env policy nodes store).2).map (fun o => o.peerName) =
      nodes.map (fun n => n.name) := by
  induction nodes generalizing store with
  | nil => rfl
  | cons n ns ih =>
    cases h : syncPeerBody env policy store n with
    | ok st2 => simp [synchronizeData, h, ih]
    | error e => simp [synchronizeData, h, ih]

/-- The source `synchronizeData` never reads a clock. This wrapper passes
the instant at which the cycle starts as an explicit argument, making
visible that the cycle's entire result is independent of it. -/
def synchronizeDataAt (startInstant : Int) (env : SyncEnv) (policy : String)
    (nodes : List NodeCfg) (store : Store) : Store × List SyncOutcome :=
  synchronizeData env policy nodes store

/-- C5 counterexample: cycles started at two different instants produce
identical results — the cycle report cannot contain the cycle-level start
or end instant the claim requires, since equal reports cannot encode
different instants. -/
theorem synchronizeData_report_has_no_timing :
    synchronizeDataAt 0 envW1 "latest-timestamp" configNodes [] =
      synchronizeDataAt 987654 envW1 "latest-timestamp" configNodes [] ∧
    (0 : Int) ≠ 987654 :=
  ⟨rfl, by decide⟩

/-! ### C2 -/

/-- C2 counterexample: with the unsupported policy name `most-recent`
configured, a full sync cycle over a peer with no local record starts,
performs its network fetch, succeeds, and never raises
`UnsupportedPolicy`; with a local record present the error surfaces only
inside the resolution call of the running cycle, where it is caught and
recorded like any per-peer failure rather than preventing the cycle. -/
theorem unsupportedPolicy_not_config_time :
    (synchronizeData env8 "most-recent" [nodeA] []).2 =
      [⟨"Node 1", true, none⟩] ∧
    (synchronizeData env8 "most-recent" [nodeA]
        [("Node_1_data.json", "\x7b\"timestamp\":1\x7d")]).2 =
      [⟨"Node 1", false, some "Unsupported conflict resolution strategy"⟩] :=
  ⟨rfl, rfl⟩

/-- C2 (amended): the policy name is validated only inside
`resolveConflict`. With an unsupported policy the cycle still starts and
fetches; a peer whose truthy local record reaches the resolution step
fails lazily there with `Unsupported conflict resolution strategy`, the
failure is caught, recorded as that peer's outcome, and nothing is
persisted for it. -/
theorem unsupportedPolicy_lazy_in_cycle
    (env : SyncEnv) (policy : String) (node : NodeCfg) (store : Store)
    (r : Json) (c : String) (l : Json) (tl tr : Option Json)
    (hpol : policy ≠ "latest-timestamp")
    (hf : env.fetch node.url = Except.ok r)
    (hl : Store.read store (localFileName node.name) = some c)
    (hp : parseJson c = some l)
    (ht : jsTruthy l = true)
    (hml : jsMember l "timestamp" = Except.ok tl)
    (hmr : jsMember r "timestamp" = Except.ok tr) :
    synchronizeData env policy [node] store =
      (store, [⟨node.name, false, some "Unsupported conflict resolution strategy"⟩]) := by
  have hres := resolveConflict_unsupported policy l r tl tr hpol hml hmr
  have hbody := syncPeerBody_resolve_error env policy store node r c l
    "Unsupported conflict resolution strategy" hf hl hp ht hres
  simp [synchronizeData, hbody]

/-- C2 witness: the lazy `UnsupportedPolicy` failure at a concrete peer. -/
theorem unsupportedPolicy_lazy_in_cycle_witness :
    synchronizeData env8 "most-recent" [nodeA]
        [("Node_1_data.json", "\x7b\"timestamp\":1\x7d")] =
      ([("Node_1_data.json", "\x7b\"timestamp\":1\x7d")],
       [⟨"Node 1", false, some "Unsupported conflict resolution strategy"⟩]) :=
  unsupportedPolicy_lazy_in_cycle env8 "most-recent" nodeA
    [("Node_1_data.json", "\x7b\"timestamp\":1\x7d")] remote8
    "\x7b\"timestamp\":1\x7d" (Json.obj [("timestamp", Json.num 1)])
    (some (Json.num 1)) (some (Json.num 100))
    (by decide) rfl rfl rfl rfl rfl rfl

/-! ### C3 -/

/-- C3: under the `latest-timestamp` policy, for records whose timestamps
both convert to valid dates, `resolveConflict` returns the local record
exactly when its timestamp is strictly greater, and returns the remote
record on equality or when the remote timestamp is strictly greater. -/
theorem resolveConflict_latest_timestamp_iff
    (l r : Json) (tl tr : Option Json) (lt rt : Int)
    (hne : l ≠ r)
    (hml : jsMember l "timestamp" = Except.ok tl)
    (hmr : jsMember r "timestamp" = Except.ok tr)
    (hlt : jsDateOf tl = some lt)
    (hrt : jsDateOf tr = some rt) :
    (resolveConflict "latest-timestamp" l r = Except.ok l ↔ rt < lt) ∧
    (lt ≤ rt → resolveConflict "latest-timestamp" l r = Except.ok r) := by
  rw [resolveConflict_latest_eq l r tl tr hml hmr, hlt, hrt]
  constructor
  · by_cases h : rt < lt
    · simp [jsDateGtM, h]
    · simp [jsDateGtM, h, Ne.symm hne]
  · intro hle
    have h : ¬ (rt < lt) := not_lt.mpr hle
    simp [jsDateGtM, h]

/-- C3 witness: local timestamp 5 against remote timestamp 3. -/
theorem resolveConflict_latest_timestamp_iff_witness :
    (resolveConflict "latest-timestamp"
        (Json.obj [("timestamp", Json.num 5)]) (Json.obj [("timestamp", Json.num 3)]) =
        Except.ok (Json.obj [("timestamp", Json.num 5)]) ↔ (3 : Int) < 5) ∧
    ((5 : Int) ≤ 3 → resolveConflict "latest-timestamp"
        (Json.obj [("timestamp", Json.num 5)]) (Json.obj [("timestamp", Json.num 3)]) =
        Except.ok (Json.obj [("timestamp", Json.num 3)])) :=
  resolveConflict_latest_timestamp_iff
    (Json.obj [("timestamp", Json.num 5)]) (Json.obj [("timestamp", Json.num 3)])
    (some (Json.num 5)) (some (Json.num 3)) 5 3 (by simp) rfl rfl rfl rfl

/-! ### C4 -/

/-- C4: when no local record exists under a peer's key, the fetched remote
record wins unconditionally — the cycle persists its serialization under
the peer's key and reports the peer succeeded, under any configured
policy. -/
theorem synchronizeData_absent_local_remote_wins
    (env : SyncEnv) (policy : String) (node : NodeCfg) (store : Store) (r : Json)
    (hf : env.fetch node.url = Except.ok r)
    (hl : Store.read store (localFileName node.name) = none)
    (hw : env.writeOk (localFileName node.name) = true) :
    synchronizeData env policy [node] store =
      (Store.write store (localFileName node.name) (jsonStringify2 r),
       [⟨node.name, true, none⟩]) := by
  have h1 := syncPeerBody_no_local env policy store node r hf hl hw
  simp [synchronizeData, h1]

/-- C4 witness: the spec's first example scenario, with no local record. -/
theorem synchronizeData_absent_local_remote_wins_witness :
    synchronizeData env8 "latest-timestamp" [nodeA] [] =
      (Store.write [] "Node_1_data.json" (jsonStringify2 remote8),
       [⟨"Node 1", true, none⟩]) :=
  synchronizeData_absent_local_remote_wins env8 "latest-timestamp" nodeA [] remote8
    rfl rfl rfl

/-! ### C6 -/

/-- C6 counterexample: two stores whose payloads under `f.json` have
different digests give identical `verifyIntegrity` results for the same
wrong expected digest — the result is only the boolean, so the computed
digest cannot be part of it, contrary to the claim. -/
theorem verifyIntegrity_digest_not_in_result :
    verifyIntegrity [("f.json", "AAA")] "f.json" "nope" = Except.ok false ∧
    verifyIntegrity [("f.json", "BBB")] "f.json" "nope" = Except.ok false ∧
    hashData "AAA" ≠ hashData "BBB" :=
  ⟨rfl, rfl, by decide⟩

/-- C6 (amended): `verifyIntegrity` returns only a boolean matched flag —
`true` exactly when the expected digest equals the digest of the stored
payload, `false` for any other expected digest (so re-verifying with the
old digest after the payload changed to one with a different digest yields
`false`); the computed digest itself is not part of the result. -/
theorem verifyIntegrity_matched_iff_digest_eq
    (store : Store) (k d p : String)
    (h : Store.read store k = some p) :
    (verifyIntegrity store k d = Except.ok true ↔ hashData p = d) ∧
    (hashData p ≠ d → verifyIntegrity store k d = Except.ok false) := by
  unfold verifyIntegrity loadDataFromFile
  rw [h]
  by_cases hd : hashData p = d
  · simp [hd]
  · simp [hd]

/-- C6 witness: verifying a stored payload against its true digest. -/
theorem verifyIntegrity_matched_iff_digest_eq_witness :
    (verifyIntegrity [("f.json", "payload")] "f.json" (hashData "payload") =
        Except.ok true ↔ hashData "payload" = hashData "payload") ∧
    (hashData "payload" ≠ hashData "payload" →
      verifyIntegrity [("f.json", "payload")] "f.json" (hashData "payload") =
        Except.ok false) :=
  verifyIntegrity_matched_iff_digest_eq [("f.json", "payload")] "f.json"
    (hashData "payload") "payload" rfl

/-! ### C7 -/

/-- C7: writing a payload under a key and then reading that key returns
exactly the written payload (whenever the underlying filesystem write goes
through, which is the only way `saveDataToFile` reports success). -/
theorem saveDataToFile_loadDataFromFile_roundtrip
    (env : SyncEnv) (store : Store) (k p : String)
    (hw : env.writeOk k = true) :
    saveDataToFile env store k p = Except.ok (Store.write store k p) ∧
    loadDataFromFile (Store.write store k p) k = Except.ok p := by
  constructor
  · simp [saveDataToFile, hw]
  · simp [loadDataFromFile, Store.read_write_self]

/-- C7 witness: a concrete write/read round trip. -/
theorem saveDataToFile_loadDataFromFile_roundtrip_witness :
    saveDataToFile env8 [] "k.json" "payload" =
      Except.ok (Store.write [] "k.json" "payload") ∧
    loadDataFromFile (Store.write [] "k.json" "payload") "k.json" =
      Except.ok "payload" :=
  saveDataToFile_loadDataFromFile_roundtrip env8 [] "k.json" "payload" rfl

/-! ### C8 -/

/-- C8 counterexample: the spec's local-wins scenario with the local file
stored compactly. The local record (timestamp 200) beats the remote
(timestamp 100) and the peer succeeds, but the persisted bytes are the
2-space pretty-printed re-serialization, not the pre-cycle compact bytes —
the store content changes even though the local record won. -/
theorem synchronizeData_local_win_rewrites_bytes :
    Store.read (synchronizeData env8 "latest-timestamp" [nodeA]
        [("Node_1_data.json", "\x7b\"timestamp\":200,\"value\":\"y\"\x7d")]).1
      "Node_1_data.json" =
      some "\x7b\n  \"timestamp\": 200,\n  \"value\": \"y\"\n\x7d" ∧
    (synchronizeData env8 "latest-timestamp" [nodeA]
        [("Node_1_data.json", "\x7b\"timestamp\":200,\"value\":\"y\"\x7d")]).2 =
      [⟨"Node 1", true, none⟩] ∧
    "\x7b\n  \"timestamp\": 200,\n  \"value\": \"y\"\n\x7d" ≠
      "\x7b\"timestamp\":200,\"value\":\"y\"\x7d" :=
  ⟨rfl, rfl, by decide⟩

/-- C8 (amended): when the local record wins, the cycle persists the
2-space re-serialization of the parsed local record under the peer's key —
the record is semantically unchanged, and the stored bytes are unchanged
exactly when the pre-cycle content already was that canonical
serialization. -/
theorem synchronizeData_local_win_canonical_reserialization
    (env : SyncEnv) (node : NodeCfg) (store : Store) (c : String)
    (l r : Json) (tl tr : Option Json) (lt rt : Int)
    (hf : env.fetch node.url = Except.ok r)
    (hl : Store.read store (localFileName node.name) = some c)
    (hp : parseJson c = some l)
    (ht : jsTruthy l = true)
    (hml : jsMember l "timestamp" = Except.ok tl)
    (hmr : jsMember r "timestamp" = Except.ok tr)
    (hlt : jsDateOf tl = some lt)
    (hrt : jsDateOf tr = some rt)
    (hgt : rt < lt)
    (hw : env.writeOk (localFileName node.name) = true) :
    synchronizeData env "latest-timestamp" [node] store =
      (Store.write store (localFileName node.name) (jsonStringify2 l),
       [⟨node.name, true, none⟩]) ∧
    (c = jsonStringify2 l →
      Store.read (synchronizeData env "latest-timestamp" [node] store).1
        (localFileName node.name) = some c) := by
  have hres : resolveConflict "latest-timestamp" l r = Except.ok l := by
    rw [resolveConflict_latest_eq l r tl tr hml hmr, hlt, hrt]
    simp [jsDateGtM, hgt]
  have hbody := syncPeerBody_with_local env "latest-timestamp" store node r c l l
    hf hl hp ht hres hw
  have hmain : synchronizeData env "latest-timestamp" [node] store =
      (Store.write store (localFileName node.name) (jsonStringify2 l),
       [⟨node.name, true, none⟩]) := by
    simp [synchronizeData, hbody]
  refine ⟨hmain, fun hc => ?_⟩
  rw [hmain]
  rw [Store.read_write_self, hc]

/-- C8 witness: the same scenario with the local file already stored in
canonical pretty-printed form — there the bytes are unchanged. -/
theorem synchronizeData_local_win_canonical_reserialization_witness :
    synchronizeData env8 "latest-timestamp" [nodeA]
        [("Node_1_data.json", "\x7b\n  \"timestamp\": 200,\n  \"value\": \"y\"\n\x7d")] =
      (Store.write [("Node_1_data.json", "\x7b\n  \"timestamp\": 200,\n  \"value\": \"y\"\n\x7d")]
         "Node_1_data.json"
         (jsonStringify2 (Json.obj [("timestamp", Json.num 200), ("value", Json.str "y")])),
       [⟨"Node 1", true, none⟩]) ∧
    Store.read (synchronizeData env8 "latest-timestamp" [nodeA]
        [("Node_1_data.json", "\x7b\n  \"timestamp\": 200,\n  \"value\": \"y\"\n\x7d")]).1
      "Node_1_data.json" =
      some "\x7b\n  \"timestamp\": 200,\n  \"value\": \"y\"\n\x7d" := by
  have h := synchronizeData_local_win_canonical_reserialization env8 nodeA
    [("Node_1_data.json", "\x7b\n  \"timestamp\": 200,\n  \"value\": \"y\"\n\x7d")]
    "\x7b\n  \"timestamp\": 200,\n  \"value\": \"y\"\n\x7d"
    (Json.obj [("timestamp", Json.num 200), ("value", Json.str "y")]) remote8
    (some (Json.num 200)) (some (Json.num 100)) 200 100
    rfl rfl rfl rfl rfl rfl rfl rfl (by decide) rfl
  exact ⟨h.1, h.2 rfl⟩

/-! ### C9 -/

/-- C9 counterexample: a fetched payload that is not a record at all (the
bare string `garbage`) does not fail the peer: the cycle reports success
and persists the malformed payload under the peer's key, overwriting a
well-formed local record — no `MalformedRemoteData` failure exists in the
sync path. -/
theorem synchronizeData_malformed_remote_succeeds :
    (synchronizeData env9 "latest-timestamp" [nodeA]
        [("Node_1_data.json", "\x7b\"timestamp\":200\x7d")]).2 =
      [⟨"Node 1", true, none⟩] ∧
    Store.read (synchronizeData env9 "latest-timestamp" [nodeA]
        [("Node_1_data.json", "\x7b\"timestamp\":200\x7d")]).1 "Node_1_data.json" =
      some "\"garbage\"" :=
  ⟨rfl, rfl⟩

/-- C9 (amended): the cycle never validates fetched payloads. A remote
value with no readable `timestamp` member — in particular any non-object
payload — still reaches resolution, where the invalid-date comparison
makes it win against any truthy local record, and is persisted with a
success outcome for the peer. -/
theorem synchronizeData_no_remote_validation
    (env : SyncEnv) (node : NodeCfg) (store : Store)
    (r : Json) (c : String) (l : Json) (tl : Option Json)
    (hf : env.fetch node.url = Except.ok r)
    (hl : Store.read store (localFileName node.name) = some c)
    (hp : parseJson c = some l)
    (ht : jsTruthy l = true)
    (hml : jsMember l "timestamp" = Except.ok tl)
    (hmr : jsMember r "timestamp" = Except.ok none)
    (hw : env.writeOk (localFileName node.name) = true) :
    synchronizeData env "latest-timestamp" [node] store =
      (Store.write store (localFileName node.name) (jsonStringify2 r),
       [⟨node.name, true, none⟩]) := by
  have hres : resolveConflict "latest-timestamp" l r = Except.ok r := by
    rw [resolveConflict_latest_eq l r tl none hml hmr]
    simp [jsDateOf, jsDateGtM_none_right]
  have hbody := syncPeerBody_with_local env "latest-timestamp" store node r c l r
    hf hl hp ht hres hw
  simp [synchronizeData, hbody]

/-- C9 witness: the bare-string remote payload overwriting a local record
with a valid timestamp. -/
theorem synchronizeData_no_remote_validation_witness :
    synchronizeData env9 "latest-timestamp" [nodeA]
        [("Node_1_data.json", "\x7b\"timestamp\":200\x7d")] =
      (Store.write [("Node_1_data.json", "\x7b\"timestamp\":200\x7d")]
         "Node_1_data.json" (jsonStringify2 (Json.str "garbage")),
       [⟨"Node 1", true, none⟩]) :=
  synchronizeData_no_remote_validation env9 nodeA
    [("Node_1_data.json", "\x7b\"timestamp\":200\x7d")]
    (Json.str "garbage") "\x7b\"timestamp\":200\x7d"
    (Json.obj [("timestamp", Json.num 200)]) (some (Json.num 200))
    rfl rfl rfl rfl rfl rfl rfl

/-! ### C10 -/

/-- C10: under `latest-timestamp`, whenever either record's `timestamp`
member is missing or does not convert to a valid date (so the comparison
is against an invalid date), `resolveConflict` returns the remote record;
the local record is returned only when it coincides with the remote one or
both timestamps are valid and the local one is strictly greater. -/
theorem resolveConflict_invalid_timestamp_remote_wins
    (l r : Json) (tl tr : Option Json)
    (hml : jsMember l "timestamp" = Except.ok tl)
    (hmr : jsMember r "timestamp" = Except.ok tr) :
    ((jsDateOf tl = none ∨ jsDateOf tr = none) →
      resolveConflict "latest-timestamp" l r = Except.ok r) ∧
    (resolveConflict "latest-timestamp" l r = Except.ok l →
      l = r ∨ ∃ a b, jsDateOf tl = some a ∧ jsDateOf tr = some b ∧ b < a) := by
  rw [resolveConflict_latest_eq l r tl tr hml hmr]
  constructor
  · rintro (h | h)
    · rw [h, jsDateGtM_none_left]
      simp
    · rw [h, jsDateGtM_none_right]
      simp
  · intro h
    cases htl : jsDateOf tl with
    | none =>
      rw [htl, jsDateGtM_none_left] at h
      simp at h
      exact Or.inl h.symm
    | some a =>
      cases htr : jsDateOf tr with
      | none =>
        rw [htr, jsDateGtM_none_right] at h
        simp at h
        exact Or.inl h.symm
      | some b =>
        rw [htl, htr] at h
        by_cases hba : b < a
        · exact Or.inr ⟨a, b, rfl, rfl, hba⟩
        · rw [show jsDateGtM (some a) (some b) = false by simp [jsDateGtM, hba]] at h
          simp at h
          exact Or.inl h.symm

/-- C10 witness: a local record with no `timestamp` member loses to a
remote record with a valid one. -/
theorem resolveConflict_invalid_timestamp_remote_wins_witness :
    resolveConflict "latest-timestamp"
        (Json.obj [("value", Json.str "y")]) (Json.obj [("timestamp", Json.num 1)]) =
      Except.ok (Json.obj [("timestamp", Json.num 1)]) :=
  (resolveConflict_invalid_timestamp_remote_wins
      (Json.obj [("value", Json.str "y")]) (Json.obj [("timestamp", Json.num 1)])
      none (some (Json.num 1)) rfl rfl).1 (Or.inl rfl)
